import Mathlib

/-!
Shallow embedding of the GorillaBot command-recognition core.

Source files modelled here:
  * `src/commandmanager.py`, `CommandManager.check_command` — classifies one
    inbound PRIVMSG token list as a private / direct / exclamation command.
  * `configure.py`, `Configurator.get_configuration` — splits the `chans`
    and `botop` configuration values into lists and normalizes channel names.

Python strings are modelled as `List Char` (`Word`); a raw protocol line is a
`List Word`.  Python `IndexError` (raised by `list.pop` on an empty list or by
indexing an empty string/short list) is modelled by `Except PyErr`, since the
source contains no handler for it: the error propagates out of the call.
`word[1:]` is `List.tail` (total, like Python slicing), `word[0]` is a match
that raises `indexError` on the empty word, and Python's substring test
`a in b` is the decidable `a <:+: b` on character lists.
-/

namespace GorillaBot

/-- A Python string, modelled as its list of characters. -/
abbrev Word := List Char

/-- The one Python exception the modelled code can raise: `IndexError`,
from `list.pop(0)` on an empty list or `s[0]` / `line[1]` out of range. -/
inductive PyErr where
  | indexError
deriving DecidableEq, Repr

/-- The final emission step of `check_command`:
`if command != "": print(command); print(command_type)` — observable output is
the pair `(command, command_type)` when the command string is non-empty,
nothing otherwise. -/
def emit (command command_type : Word) : Option (Word × Word) :=
  if command = [] then none else some (command, command_type)

/-- The private-branch loop of `check_command`:
`for word in line: if word[0] == "!": command = word[1:]`.
`word[0]` on a zero-length word raises `IndexError`; a later match
overwrites an earlier one. -/
def scanPriv : Word → List Word → Except PyErr Word
  | command, [] => .ok command
  | command, word :: rest =>
    match word with
    | [] => .error .indexError
    | c :: tl => scanPriv (if c = '!' then tl else command) rest

/-- The exclamation-branch loop of `check_command`:
`for idx, word in enumerate(line): if word[0] == "!": command = word[1:];
command_type = "exclamation"; if idx == 0: command_type = "exclamation_first"`. -/
def scanExcl : Word → Word → Nat → List Word → Except PyErr (Word × Word)
  | command, command_type, _, [] => .ok (command, command_type)
  | command, command_type, idx, word :: rest =>
    match word with
    | [] => .error .indexError
    | c :: tl =>
      if c = '!' then
        scanExcl tl
          (if idx = 0 then "exclamation_first".toList else "exclamation".toList)
          (idx + 1) rest
      else
        scanExcl command command_type (idx + 1) rest

/-- `CommandManager.check_command(line)` with the bot nickname passed
explicitly (the source reads it from `self._bot_nick`).

The source pops the prefix token (binding `sender` from a regex that is never
read again), pops the verb token, pops the target token and compares it with
the bot nickname to set `private`, then strips one leading character from the
first remaining token (`line[0] = line[0][1:]`).  Each of the first three pops
raises `IndexError` on a too-short list, and the `line[0]` read raises it when
exactly three tokens were supplied. -/
def check_command : Word → List Word → Except PyErr (Option (Word × Word))
  | _, [] => .error .indexError
  | _, [_] => .error .indexError
  | _, [_, _] => .error .indexError
  | _, [_, _, _] => .error .indexError
  | bot_nick, _ :: _ :: raw_chan :: w0 :: ws =>
    if raw_chan = bot_nick then
      -- private branch: scan for "!" words, default to line[0] if none found
      match scanPriv [] (w0.tail :: ws) with
      | .error e => .error e
      | .ok cmd =>
        .ok (emit (if cmd = [] then w0.tail else cmd) "private".toList)
    else if bot_nick <:+: w0.tail then
      -- direct branch: command comes from line[1]
      match ws with
      | [] => .error .indexError            -- line[1] on a one-word body
      | w1 :: _ =>
        match w1 with
        | [] => .error .indexError          -- line[1][0] on an empty word
        | c :: tl =>
          .ok (emit (if c = '1' then tl else w1) "direct".toList)
    else
      -- exclamation branch
      match scanExcl [] [] 0 (w0.tail :: ws) with
      | .error e => .error e
      | .ok (command, command_type) => .ok (emit command command_type)

/-! ### Configuration subsystem (`configure.py`, `Configurator.get_configuration`) -/

/-- Python `str.strip()`: remove whitespace from both ends. -/
def pyStrip (w : Word) : Word :=
  ((w.dropWhile Char.isWhitespace).reverse.dropWhile Char.isWhitespace).reverse

/-- Python `s.split(sep)` for a one-character separator: keeps empty pieces,
and the empty string splits to `[""]`. -/
def splitOnChar (sep : Char) : Word → List Word
  | [] => [[]]
  | c :: cs =>
    match splitOnChar sep cs with
    | h :: t => if c = sep then [] :: h :: t else (c :: h) :: t
    | [] => [[c]]

/-- One iteration of the channel loop:
`chanlist[i] = chanlist[i].strip(); if chanlist[i][0] != '#': chanlist[i] = '#' + chanlist[i]`.
The `[0]` read raises `IndexError` when the stripped piece is empty. -/
def normalizeChan (w : Word) : Except PyErr Word :=
  match pyStrip w with
  | [] => .error .indexError
  | c :: tl => .ok (if c ≠ '#' then '#' :: c :: tl else c :: tl)

/-- The channel loop of `get_configuration`, applied left to right. -/
def normalizeChans : List Word → Except PyErr (List Word)
  | [] => .ok []
  | p :: ps =>
    match normalizeChan p with
    | .error e => .error e
    | .ok w =>
      match normalizeChans ps with
      | .error e => .error e
      | .ok ws => .ok (w :: ws)

/-- Python `if ',' in s: s.split(',') else: s.split(' ')`. -/
def splitList (s : Word) : List Word :=
  if ',' ∈ s then splitOnChar ',' s else splitOnChar ' ' s

/-- The `chans` processing of `get_configuration`. -/
def chanlistOf (chans : Word) : Except PyErr (List Word) :=
  normalizeChans (splitList chans)

/-- The `botop` processing of `get_configuration`: split, then strip each. -/
def oplistOf (botop : Word) : List Word :=
  (splitList botop).map pyStrip

/-- The dictionary returned by `Configurator.get_configuration`. -/
structure Configuration where
  host : Word
  port : Int
  nick : Word
  realname : Word
  ident : Word
  chans : List Word
  botop : List Word
deriving DecidableEq, Repr

/-- `Configurator.get_configuration`, with the raw option strings read from the
config file passed as arguments.  Only the `chans` processing can raise. -/
def get_configuration (host : Word) (port : Int) (nick realname ident : Word)
    (chans botop : Word) : Except PyErr Configuration :=
  match chanlistOf chans with
  | .error e => .error e
  | .ok chanlist =>
    .ok { host := host, port := port, nick := nick, realname := realname,
          ident := ident, chans := chanlist, botop := oplistOf botop }

/-! ### Spec-side definitions

These follow the wording of the specification ("the LAST word whose first
character is `!`", with its position), to be compared with the behaviour of
`check_command`. -/

/-- The last word of the body whose first character is `'!'` (a zero-length
word has no first character and never matches), per the spec's wording. -/
def lastBang : List Word → Option Word
  | [] => none
  | w :: ws =>
    match lastBang ws with
    | some v => some v
    | none => if w.take 1 = ['!'] then some w else none

/-- The last word of the body whose first character is `'!'`, together with
its zero-based position. -/
def lastBangIdx : Nat → List Word → Option (Nat × Word)
  | _, [] => none
  | i, w :: ws =>
    match lastBangIdx (i + 1) ws with
    | some p => some p
    | none => if w.take 1 = ['!'] then some (i, w) else none

/-- The command the private branch actually produces: the last `!`-word with
the marker stripped, falling back to the first body word when no word carries
the marker or when the stripped result is empty (a bare `"!"`). -/
def specPrivCommand (body : List Word) : Word :=
  match lastBang body with
  | some w => if w.tail = [] then body.headI else w.tail
  | none => body.headI

/-- The observable result of the exclamation branch, per the spec: the last
`!`-word determines the command (marker stripped); mode `exclamation_first`
when its position is 0, `exclamation` otherwise; nothing when no word matches
(mode `None`, the empty `command_type`). -/
def specExclResult (body : List Word) : Option (Word × Word) :=
  match lastBangIdx 0 body with
  | none => none
  | some (j, w) =>
    emit w.tail (if j = 0 then "exclamation_first".toList else "exclamation".toList)

/-! ### Helper lemmas -/

/-- On a body of non-empty words the private scan does not raise, and returns
the tail of the last `!`-word, or the accumulator if no word matches. -/
lemma scanPriv_ok (body : List Word) : ∀ acc : Word, (∀ w ∈ body, w ≠ []) →
    scanPriv acc body = .ok (((lastBang body).map List.tail).getD acc) := by
  induction body with
  | nil => intro acc _; rfl
  | cons w ws ih =>
    intro acc h
    have hw : w ≠ [] := h w (List.mem_cons_self w ws)
    obtain ⟨c, tl, rfl⟩ : ∃ c tl, w = c :: tl := by
      cases w with
      | nil => exact absurd rfl hw
      | cons c tl => exact ⟨c, tl, rfl⟩
    have hrest : ∀ v ∈ ws, v ≠ [] := fun v hv => h v (List.mem_cons_of_mem _ hv)
    show scanPriv (if c = '!' then tl else acc) ws = _
    rw [ih _ hrest]
    cases hlb : lastBang ws with
    | some v => simp [lastBang, hlb]
    | none =>
      by_cases hc : c = '!'
      · subst hc; simp [lastBang, hlb]
      · simp [lastBang, hlb, hc]

/-- On a body of non-empty words the exclamation scan does not raise, and
returns the tail of the last `!`-word together with the mode derived from its
position, or the accumulators if no word matches. -/
lemma scanExcl_ok (body : List Word) : ∀ (cmd ct : Word) (i : Nat),
    (∀ w ∈ body, w ≠ []) →
    scanExcl cmd ct i body = .ok (match lastBangIdx i body with
      | none => (cmd, ct)
      | some (j, w) =>
        (w.tail, if j = 0 then "exclamation_first".toList else "exclamation".toList)) := by
  induction body with
  | nil => intro cmd ct i _; rfl
  | cons w ws ih =>
    intro cmd ct i h
    have hw : w ≠ [] := h w (List.mem_cons_self w ws)
    obtain ⟨c, tl, rfl⟩ : ∃ c tl, w = c :: tl := by
      cases w with
      | nil => exact absurd rfl hw
      | cons c tl => exact ⟨c, tl, rfl⟩
    have hrest : ∀ v ∈ ws, v ≠ [] := fun v hv => h v (List.mem_cons_of_mem _ hv)
    show (if c = '!' then
        scanExcl tl (if i = 0 then "exclamation_first".toList else "exclamation".toList)
          (i + 1) ws
      else scanExcl cmd ct (i + 1) ws) = _
    by_cases hc : c = '!'
    · rw [if_pos hc, ih _ _ _ hrest]
      cases hlb : lastBangIdx (i + 1) ws with
      | some p => simp [lastBangIdx, hlb]
      | none => subst hc; simp [lastBangIdx, hlb]
    · rw [if_neg hc, ih _ _ _ hrest]
      cases hlb : lastBangIdx (i + 1) ws with
      | some p => simp [lastBangIdx, hlb]
      | none => simp [lastBangIdx, hlb, hc]

/-- Inversion for `emit`: a produced pair has a non-empty command equal to the
candidate and carries the branch's `command_type`. -/
lemma emit_eq_some {a b c t : Word} (h : emit a b = some (c, t)) :
    a ≠ [] ∧ c = a ∧ t = b := by
  by_cases ha : a = []
  · simp [emit, ha] at h
  · simp [emit, ha] at h
    exact ⟨ha, h.1.symm, h.2.symm⟩

/-- The exclamation scan either leaves both accumulators untouched or sets the
`command_type` to one of its two literals. -/
lemma scanExcl_shape (body : List Word) : ∀ (cmd ct : Word) (i : Nat) (cmd2 ct2 : Word),
    scanExcl cmd ct i body = .ok (cmd2, ct2) →
    (cmd2 = cmd ∧ ct2 = ct) ∨ ct2 = "exclamation".toList ∨
      ct2 = "exclamation_first".toList := by
  induction body with
  | nil =>
    intro cmd ct i cmd2 ct2 h
    obtain ⟨h1, h2⟩ : cmd = cmd2 ∧ ct = ct2 := by
      have : (Except.ok (cmd, ct) : Except PyErr (Word × Word)) = .ok (cmd2, ct2) := h
      simpa using this
    exact Or.inl ⟨h1.symm, h2.symm⟩
  | cons w ws ih =>
    intro cmd ct i cmd2 ct2 h
    cases w with
    | nil => simp [scanExcl] at h
    | cons c tl =>
      have hu : scanExcl cmd ct i ((c :: tl) :: ws) =
          (if c = '!' then
            scanExcl tl
              (if i = 0 then "exclamation_first".toList else "exclamation".toList)
              (i + 1) ws
          else scanExcl cmd ct (i + 1) ws) := rfl
      rw [hu] at h
      by_cases hc : c = '!'
      · rw [if_pos hc] at h
        rcases ih _ _ _ _ _ h with ⟨_, hct⟩ | hct | hct
        · by_cases hi : i = 0
          · right; right; rw [hct, if_pos hi]
          · right; left; rw [hct, if_neg hi]
        · exact Or.inr (Or.inl hct)
        · exact Or.inr (Or.inr hct)
      · rw [if_neg hc] at h
        exact ih _ _ _ _ _ h

/-- The channel loop, on success, maps each piece to its stripped form with a
`'#'` prepended when missing, and every produced name starts with `'#'`. -/
lemma normalizeChans_ok : ∀ (parts l : List Word),
    normalizeChans parts = .ok l →
    l = parts.map (fun p =>
        if (pyStrip p).headI = '#' then pyStrip p else '#' :: pyStrip p) ∧
    ∀ w ∈ l, w ≠ [] ∧ w.headI = '#' := by
  intro parts
  induction parts with
  | nil =>
    intro l h
    obtain rfl : l = [] := by
      have : (Except.ok [] : Except PyErr (List Word)) = .ok l := h
      simpa using this.symm
    exact ⟨rfl, by simp⟩
  | cons p ps ih =>
    intro l h
    unfold normalizeChans at h
    cases hn : normalizeChan p with
    | error e => rw [hn] at h; simp at h
    | ok w =>
      rw [hn] at h
      cases hm : normalizeChans ps with
      | error e => rw [hm] at h; simp at h
      | ok ws =>
        rw [hm] at h
        obtain rfl : l = w :: ws := by
          have : (Except.ok (w :: ws) : Except PyErr (List Word)) = .ok l := h
          simpa using this.symm
        obtain ⟨hmap, hall⟩ := ih ws hm
        unfold normalizeChan at hn
        cases hs : pyStrip p with
        | nil => rw [hs] at hn; simp at hn
        | cons c tl =>
          rw [hs] at hn
          obtain rfl : w = if c ≠ '#' then '#' :: c :: tl else c :: tl := by
            have : (Except.ok (if c ≠ '#' then '#' :: c :: tl else c :: tl)
                : Except PyErr Word) = .ok w := hn
            simpa using this.symm
          constructor
          · rw [hmap]
            by_cases hc : c = '#'
            · simp [hs, hc]
            · simp [hs, hc]
          · intro v hv
            rcases List.mem_cons.mp hv with rfl | hv
            · by_cases hc : c = '#'
              · subst hc; simp
              · simp [hc]
            · exact hall v hv

/-! ### Claim theorems -/

/-- C1: the claim says malformed lines (fewer than three tokens, or an empty
message body after the leading-colon strip) fail with `MalformedLineError`
treated as "no command", with no exception propagating out of the call.  The
source has no such error type and no handler: on a two-token line the third
`line.pop(0)` raises `IndexError`, on a three-token line the `line[0]` read
raises it, and on a body consisting of the single token `":"` the scan over
the resulting empty word raises it — in every case the exception propagates
out of `check_command`. -/
theorem check_command_malformed_raises :
    check_command "bot".toList [":c!u@h".toList, "PRIVMSG".toList]
      = .error .indexError ∧
    check_command "bot".toList [":c!u@h".toList, "PRIVMSG".toList, "#chan".toList]
      = .error .indexError ∧
    check_command "bot".toList
        [":c!u@h".toList, "PRIVMSG".toList, "#chan".toList, ":".toList]
      = .error .indexError :=
  ⟨rfl, rfl, rfl⟩

/-- C2 counterexample: the claim says the private branch selects as command
the LAST word whose first character is `'!'` with the marker stripped.  On the
body `hello !` the last such word is the bare `"!"`, which strips to the empty
string; the code's `if command == "": command = line[0]` fallback then fires,
and the call emits the command `hello` — not the empty strip of the last
marker word. -/
theorem check_command_private_bare_bang_cex :
    (lastBang ["hello".toList, "!".toList]).map List.tail = some [] ∧
    check_command "bot".toList
        [":a!u@h".toList, "PRIVMSG".toList, "bot".toList, ":hello".toList, "!".toList]
      = .ok (some ("hello".toList, "private".toList)) ∧
    "hello".toList ≠ ([] : Word) :=
  ⟨rfl, rfl, by decide⟩

/-- C2 (amended): for every line whose target token equals the bot's nickname
and whose message-body words are all non-empty, the classifier scans every
word and selects the LAST word whose first character is `'!'` with the marker
stripped; if no word carries the marker, or the stripped result is empty (the
last marker word is a bare `"!"`), the command falls back to the first
message-body word; in both cases the addressing mode is `private`. -/
theorem check_command_private_mode (nick p v w0 : Word) (ws : List Word)
    (hbody : ∀ w ∈ w0.tail :: ws, w ≠ []) :
    check_command nick (p :: v :: nick :: w0 :: ws) =
      .ok (some (specPrivCommand (w0.tail :: ws), "private".toList)) := by
  have h0 : w0.tail ≠ [] := hbody _ (List.mem_cons_self _ _)
  have hscan := scanPriv_ok (w0.tail :: ws) [] hbody
  simp only [check_command]
  rw [if_pos trivial, hscan]
  cases hlb : lastBang (w0.tail :: ws) with
  | none => simp [specPrivCommand, hlb, emit, h0]
  | some w =>
    by_cases ht : w.tail = []
    · simp [specPrivCommand, hlb, ht, emit, h0]
    · simp [specPrivCommand, hlb, ht, emit]

/-- C2 witness: a private line whose body is `!pls ok !help` recognizes the
last marker word, emitting the command `help` in mode `private`. -/
theorem check_command_private_mode_witness :
    (∀ w ∈ (":!pls".toList.tail :: ["ok".toList, "!help".toList]), w ≠ []) ∧
    check_command "bot".toList
        [":alice!u@h".toList, "PRIVMSG".toList, "bot".toList,
          ":!pls".toList, "ok".toList, "!help".toList]
      = .ok (some ("help".toList, "private".toList)) :=
  ⟨by decide,
    (check_command_private_mode "bot".toList ":alice!u@h".toList "PRIVMSG".toList
      ":!pls".toList ["ok".toList, "!help".toList] (by decide)).trans rfl⟩

/-- C3: for every non-private line whose first message-body word contains the
bot's nickname as a substring and whose body has a (non-empty) second word,
the command comes from the second word: stripped of its first character when
that character is the literal digit `'1'`, verbatim otherwise; the addressing
mode is `direct`. -/
theorem check_command_direct_mode (nick p v chan w0 w1 : Word) (ws : List Word)
    (hchan : chan ≠ nick) (hsub : nick <:+: w0.tail) (hw1 : w1 ≠ []) :
    check_command nick (p :: v :: chan :: w0 :: w1 :: ws) =
      .ok (emit (if w1.headI = '1' then w1.tail else w1) "direct".toList) := by
  obtain ⟨c, tl, rfl⟩ : ∃ c tl, w1 = c :: tl := by
    cases w1 with
    | nil => exact absurd rfl hw1
    | cons c tl => exact ⟨c, tl, rfl⟩
  simp only [check_command]
  rw [if_neg hchan, if_pos hsub]
  rfl

/-- C3 witness: the spec's Example 2 — channel line `bot: 1wave` with the
bot nicknamed `bot` yields the command `wave` in mode `direct`. -/
theorem check_command_direct_mode_witness :
    ("#chan".toList ≠ "bot".toList ∧ "bot".toList <:+: ":bot:".toList.tail ∧
      "1wave".toList ≠ ([] : Word)) ∧
    check_command "bot".toList
        [":bob!u@h".toList, "PRIVMSG".toList, "#chan".toList, ":bot:".toList, "1wave".toList]
      = .ok (some ("wave".toList, "direct".toList)) :=
  ⟨⟨by decide, by decide, by decide⟩,
    (check_command_direct_mode "bot".toList ":bob!u@h".toList "PRIVMSG".toList
      "#chan".toList ":bot:".toList "1wave".toList [] (by decide) (by decide)
      (by decide)).trans rfl⟩

/-- C4: for every non-private line whose first message-body word does not
contain the bot's nickname (all body words non-empty), the LAST word whose
first character is `'!'` determines the command with the marker stripped, in
mode `exclamation_first` when its position is 0 and `exclamation` otherwise;
when no word matches, nothing is emitted (mode `None`). -/
theorem check_command_exclamation_mode (nick p v chan w0 : Word) (ws : List Word)
    (hchan : chan ≠ nick) (hsub : ¬ nick <:+: w0.tail)
    (hbody : ∀ w ∈ w0.tail :: ws, w ≠ []) :
    check_command nick (p :: v :: chan :: w0 :: ws) =
      .ok (specExclResult (w0.tail :: ws)) := by
  have hscan := scanExcl_ok (w0.tail :: ws) [] [] 0 hbody
  simp only [check_command]
  rw [if_neg hchan, if_neg hsub, hscan]
  cases hlb : lastBangIdx 0 (w0.tail :: ws) with
  | none => simp [specExclResult, hlb, emit]
  | some jw => cases jw with | mk j w => simp [specExclResult, hlb]

/-- C4 witness: the spec's Example 3 — channel line `hey !ping there` yields
the command `ping` in mode `exclamation` (marker word at position 1). -/
theorem check_command_exclamation_mode_witness :
    ("#chan".toList ≠ "bot".toList ∧ ¬ "bot".toList <:+: ":hey".toList.tail ∧
      ∀ w ∈ (":hey".toList.tail :: ["!ping".toList, "there".toList]), w ≠ []) ∧
    check_command "bot".toList
        [":c!u@h".toList, "PRIVMSG".toList, "#chan".toList,
          ":hey".toList, "!ping".toList, "there".toList]
      = .ok (some ("ping".toList, "exclamation".toList)) :=
  ⟨⟨by decide, by decide, by decide⟩,
    (check_command_exclamation_mode "bot".toList ":c!u@h".toList "PRIVMSG".toList
      "#chan".toList ":hey".toList ["!ping".toList, "there".toList]
      (by decide) (by decide) (by decide)).trans rfl⟩

/-- C5: the claim says the direct branch fails silently (no command, no
exception) when the message body has fewer than two words.  The source
instead reads `line[1]` unconditionally, which raises `IndexError` on a
one-word body, and the exception propagates out of `check_command`. -/
theorem check_command_direct_short_body_raises :
    check_command "bot".toList
        [":a!u@h".toList, "PRIVMSG".toList, "#chan".toList, ":bot:".toList]
      = .error .indexError :=
  rfl

/-- C6: the claim says a zero-length word in the message body is skipped by
the private and exclamation scans and never makes the first-character
inspection fault.  The source inspects `word[0]` unguarded, which raises
`IndexError` on an empty word in either scan, and the exception propagates
out of `check_command`. -/
theorem check_command_empty_word_raises :
    check_command "bot".toList
        [":a!u@h".toList, "PRIVMSG".toList, "#chan".toList,
          ":hey".toList, "".toList, "!go".toList]
      = .error .indexError ∧
    check_command "bot".toList
        [":a!u@h".toList, "PRIVMSG".toList, "bot".toList, ":hey".toList, "".toList]
      = .error .indexError :=
  ⟨rfl, rfl⟩

/-- C7: every successfully classified line yields at most one recognized
command (a single optional pair), its command text is non-empty, and its
addressing mode is exactly one of the branch literals, each tied to the
mutually exclusive guard of the one branch that executed. -/
theorem check_command_unique_result (nick : Word) (line : List Word) (c t : Word)
    (h : check_command nick line = .ok (some (c, t))) :
    c ≠ [] ∧ ∃ p v chan w0 ws, line = p :: v :: chan :: w0 :: ws ∧
      ((t = "private".toList ∧ chan = nick) ∨
       (t = "direct".toList ∧ chan ≠ nick ∧ nick <:+: w0.tail) ∨
       ((t = "exclamation".toList ∨ t = "exclamation_first".toList) ∧
         chan ≠ nick ∧ ¬ nick <:+: w0.tail)) := by
  rcases line with _ | ⟨p, _ | ⟨v, _ | ⟨chan, _ | ⟨w0, ws⟩⟩⟩⟩
  · exact absurd h (by simp [check_command])
  · exact absurd h (by simp [check_command])
  · exact absurd h (by simp [check_command])
  · exact absurd h (by simp [check_command])
  · by_cases hpriv : chan = nick
    · simp only [check_command] at h
      rw [if_pos hpriv] at h
      cases hs : scanPriv [] (w0.tail :: ws) with
      | error e => rw [hs] at h; simp at h
      | ok cmd =>
        rw [hs] at h
        simp only [Except.ok.injEq] at h
        obtain ⟨hne, hc, ht⟩ := emit_eq_some h
        exact ⟨hc ▸ hne, p, v, chan, w0, ws, rfl, Or.inl ⟨ht, hpriv⟩⟩
    · by_cases hsub : nick <:+: w0.tail
      · simp only [check_command] at h
        rw [if_neg hpriv, if_pos hsub] at h
        rcases ws with _ | ⟨w1, ws'⟩
        · simp at h
        · rcases w1 with _ | ⟨ch, tl⟩
          · simp at h
          · simp only [Except.ok.injEq] at h
            obtain ⟨hne, hc, ht⟩ := emit_eq_some h
            exact ⟨hc ▸ hne, p, v, chan, w0, (ch :: tl) :: ws', rfl,
              Or.inr (Or.inl ⟨ht, hpriv, hsub⟩)⟩
      · simp only [check_command] at h
        rw [if_neg hpriv, if_neg hsub] at h
        cases hs : scanExcl [] [] 0 (w0.tail :: ws) with
        | error e => rw [hs] at h; simp at h
        | ok pr =>
          rcases pr with ⟨c2, t2⟩
          rw [hs] at h
          simp only [Except.ok.injEq] at h
          obtain ⟨hne, hc, ht⟩ := emit_eq_some h
          rcases scanExcl_shape (w0.tail :: ws) [] [] 0 c2 t2 hs with ⟨h1, _⟩ | hct | hct
          · exact absurd h1 hne
          · exact ⟨hc ▸ hne, p, v, chan, w0, ws, rfl,
              Or.inr (Or.inr ⟨Or.inl (ht.trans hct), hpriv, hsub⟩)⟩
          · exact ⟨hc ▸ hne, p, v, chan, w0, ws, rfl,
              Or.inr (Or.inr ⟨Or.inr (ht.trans hct), hpriv, hsub⟩)⟩

/-- C7 witness: the spec's Example 3 line yields the single recognized
command `ping` with mode `exclamation`, tied to the exclamation branch. -/
theorem check_command_unique_result_witness :
    ("ping".toList : Word) ≠ [] ∧
    ∃ p v chan w0 ws,
      ([":c!u@h".toList, "PRIVMSG".toList, "#chan".toList,
          ":hey".toList, "!ping".toList, "there".toList] : List Word)
        = p :: v :: chan :: w0 :: ws ∧
      (("exclamation".toList = "private".toList ∧ chan = "bot".toList) ∨
       ("exclamation".toList = "direct".toList ∧ chan ≠ "bot".toList ∧
         "bot".toList <:+: w0.tail) ∨
       (("exclamation".toList = "exclamation".toList ∨
          "exclamation".toList = "exclamation_first".toList) ∧
         chan ≠ "bot".toList ∧ ¬ "bot".toList <:+: w0.tail)) :=
  check_command_unique_result "bot".toList
    [":c!u@h".toList, "PRIVMSG".toList, "#chan".toList,
      ":hey".toList, "!ping".toList, "there".toList]
    "ping".toList "exclamation".toList rfl

/-- C8: on success, the configuration's `chans` value is the input split on
comma when one is present and otherwise on space, each piece stripped and
given a leading `'#'` when it lacks one — so every returned channel name
begins with `'#'` — and `botop` is the corresponding split with each piece
stripped. -/
theorem get_configuration_lists (host : Word) (port : Int)
    (nick realname ident chans botop : Word) (cfg : Configuration)
    (h : get_configuration host port nick realname ident chans botop = .ok cfg) :
    cfg.chans = (splitList chans).map (fun p =>
        if (pyStrip p).headI = '#' then pyStrip p else '#' :: pyStrip p) ∧
    (∀ w ∈ cfg.chans, w ≠ [] ∧ w.headI = '#') ∧
    cfg.botop = (splitList botop).map pyStrip := by
  unfold get_configuration at h
  cases hc : chanlistOf chans with
  | error e => rw [hc] at h; simp at h
  | ok l =>
    rw [hc] at h
    simp only [Except.ok.injEq] at h
    have hc' : normalizeChans (splitList chans) = .ok l := hc
    obtain ⟨hmap, hall⟩ := normalizeChans_ok (splitList chans) l hc'
    refine ⟨?_, ?_, ?_⟩
    · rw [← h]; exact hmap
    · rw [← h]; exact hall
    · rw [← h]; rfl

/-- C8 witness: `chans = "foo, #bar"` (comma-separated) and
`botop = "alice bob"` (space-separated) produce `["#foo", "#bar"]` and
`["alice", "bob"]`. -/
theorem get_configuration_lists_witness :
    (Configuration.mk "h".toList 6667 "bot".toList "r".toList "i".toList
        ["#foo".toList, "#bar".toList] ["alice".toList, "bob".toList]).chans
      = (splitList "foo, #bar".toList).map (fun p =>
          if (pyStrip p).headI = '#' then pyStrip p else '#' :: pyStrip p) ∧
    (∀ w ∈ (Configuration.mk "h".toList 6667 "bot".toList "r".toList "i".toList
        ["#foo".toList, "#bar".toList] ["alice".toList, "bob".toList]).chans,
        w ≠ [] ∧ w.headI = '#') ∧
    (Configuration.mk "h".toList 6667 "bot".toList "r".toList "i".toList
        ["#foo".toList, "#bar".toList] ["alice".toList, "bob".toList]).botop
      = (splitList "alice bob".toList).map pyStrip :=
  get_configuration_lists "h".toList 6667 "bot".toList "r".toList "i".toList
    "foo, #bar".toList "alice bob".toList _ rfl

/-- C9: the classification result depends only on the tokens after the
prefix token and on the bot's nickname — two lines differing only in their
first token classify identically (the prefix is popped and only feeds the
never-read `sender` binding). -/
theorem check_command_ignores_first_token (nick p q : Word) (rest : List Word) :
    check_command nick (p :: rest) = check_command nick (q :: rest) := by
  rcases rest with _ | ⟨v, _ | ⟨chan, _ | ⟨w0, ws⟩⟩⟩ <;> rfl

/-- C10: in the exclamation branch, when the LAST `'!'`-word of the body is
the bare one-character word `"!"`, the command candidate is overwritten with
the empty string and nothing is emitted, even though an earlier `'!'`-word
carried a non-empty command. -/
theorem check_command_bare_bang_overwrites (nick p v chan w0 : Word)
    (ws : List Word) (j : Nat)
    (hchan : chan ≠ nick) (hsub : ¬ nick <:+: w0.tail)
    (hbody : ∀ w ∈ w0.tail :: ws, w ≠ [])
    (hearlier : ∃ w ∈ w0.tail :: ws, w.take 1 = ['!'] ∧ w.tail ≠ [])
    (hlast : lastBangIdx 0 (w0.tail :: ws) = some (j, ['!'])) :
    check_command nick (p :: v :: chan :: w0 :: ws) = .ok none := by
  have hscan := scanExcl_ok (w0.tail :: ws) [] [] 0 hbody
  simp only [check_command]
  rw [if_neg hchan, if_neg hsub, hscan, hlast]
  rfl

/-- C10 witness: channel line `!help !` emits nothing — the trailing bare
`"!"` overwrites the command recognized from `!help`. -/
theorem check_command_bare_bang_overwrites_witness :
    ("#chan".toList ≠ "bot".toList ∧ ¬ "bot".toList <:+: ":!help".toList.tail ∧
      (∀ w ∈ (":!help".toList.tail :: ["!".toList]), w ≠ []) ∧
      (∃ w ∈ (":!help".toList.tail :: ["!".toList]), w.take 1 = ['!'] ∧ w.tail ≠ []) ∧
      lastBangIdx 0 (":!help".toList.tail :: ["!".toList]) = some (1, ['!'])) ∧
    check_command "bot".toList
        [":c!u@h".toList, "PRIVMSG".toList, "#chan".toList, ":!help".toList, "!".toList]
      = .ok none :=
  ⟨⟨by decide, by decide, by decide, by decide, by decide⟩,
    check_command_bare_bang_overwrites "bot".toList ":c!u@h".toList "PRIVMSG".toList
      "#chan".toList ":!help".toList ["!".toList] 1
      (by decide) (by decide) (by decide) (by decide) (by decide)⟩

/-! ### Worked examples of the specification, checked by evaluation -/

/-- Example 1 of the spec: a private `!help` line. -/
example : check_command "bot".toList
    [":alice!user@host".toList, "PRIVMSG".toList, "bot".toList, ":!help".toList]
    = .ok (some ("help".toList, "private".toList)) := rfl

/-- Example 2 of the spec: `bot: 1wave` in a channel. -/
example : check_command "bot".toList
    [":bob!u@h".toList, "PRIVMSG".toList, "#chan".toList, ":bot:".toList, "1wave".toList]
    = .ok (some ("wave".toList, "direct".toList)) := rfl

/-- Example 3 of the spec: `hey !ping there` in a channel. -/
example : check_command "bot".toList
    [":c!u@h".toList, "PRIVMSG".toList, "#chan".toList,
      ":hey".toList, "!ping".toList, "there".toList]
    = .ok (some ("ping".toList, "exclamation".toList)) := rfl

/-- Example 4 of the spec: a channel line with no marker emits nothing. -/
example : check_command "bot".toList
    [":c!u@h".toList, "PRIVMSG".toList, "#chan".toList, ":just".toList, "chatting".toList]
    = .ok none := rfl

/-- Channel and operator lists from `get_configuration`. -/
example : chanlistOf "foo, #bar".toList = .ok ["#foo".toList, "#bar".toList] := rfl

/-- Space-separated channel list, names normalized to start with a hash. -/
example : chanlistOf "foo #bar baz".toList
    = .ok ["#foo".toList, "#bar".toList, "#baz".toList] := rfl

/-- Space-separated operator list, stripped but not hash-normalized. -/
example : oplistOf "alice bob".toList = ["alice".toList, "bob".toList] := rfl

end GorillaBot
